import Mathlib

/-!
Shallow embedding of the PetalDocuments Soroban contract
(`src/Rel/src/lib.rs`, helpers in `src/Rel/src/erc_functions.rs`).

Modelling conventions:
* `Address` and text values (`String` in the source: URIs, document hashes)
  are opaque identifiers, modelled as `Nat`.
* Soroban `Map<K, V>` is modelled as an association list with unique keys
  (`aget` / `aset`); `aset` replaces the value at an existing key and
  appends a fresh key, which matches the observable get/set/is_empty
  behaviour of the host map.
* Persistent storage is the record `ContractState`, one field per storage
  symbol (`OWNERS`, `URIS`, `T2DHASH`, `DEADLINES`, `DOCSIGN`, `NONCES`,
  `ADMIN`, `TEST`).  `e.storage().persistent().get(&K).unwrap_or(Map::new)`
  is a read of the field; only an explicit
  `e.storage().persistent().set(&K, ..)` writes the field back.  In
  particular `sign_document` mutates its local copy of the `NONCES` map but
  never issues a persistent `set` for it, and the model preserves that.
* A contract call either aborts (Rust `panic_with_error!` carrying an
  `Error`, or a bare panic/`unwrap` failure, modelled by `Fail.trap`) or
  commits all its writes; the host discards every write of an aborted call,
  so an operation is a total function `ContractState → Except Fail ..`.
* `e.ledger().timestamp()` is constant during one invocation and is passed
  as the `now` argument.
* `signer.require_auth()` is host authentication of the invoker and always
  succeeds in the model (auth failures are outside the claims).
* Machine integers (`u32` token ids and nonces, `u64` timestamps) are
  modelled as `Nat`; the arithmetic the contract performs on them
  (`last_nonce + 1`, `test_int + 1`) aborts the call on overflow in a
  checked build, so successful calls never wrap.
-/

/-- Signature status of a signer for one token
(`SignatureStatus` in the source). -/
inductive SignatureStatus where
  | NotASigner
  | Rejected
  | Signed
  | Waiting
deriving DecidableEq, Repr

/-- The contract error enum (`Error` in the source), codes 1–15. -/
inductive Error where
  | TokenNotMinted
  | DocumentSigningsIsEmpty
  | NotASigner
  | AlreadySigned
  | SignerDoesNotExist
  | DocumentHashesIsEmpty
  | DocumentHashesDoesNotMatchTokenHash
  | HashNotFound
  | DeadlinesIsEmpty
  | DeadlinePassed
  | DeadlineNotFound
  | SignatureExpired
  | TokenAlreadyMinted
  | TokenDoesNotExist
  | SignersListEmpty
deriving DecidableEq, Repr

/-- The numeric code of each contract error (`#[repr(u32)]` values). -/
def Error.code : Error → Nat
  | .TokenNotMinted => 1
  | .DocumentSigningsIsEmpty => 2
  | .NotASigner => 3
  | .AlreadySigned => 4
  | .SignerDoesNotExist => 5
  | .DocumentHashesIsEmpty => 6
  | .DocumentHashesDoesNotMatchTokenHash => 7
  | .HashNotFound => 8
  | .DeadlinesIsEmpty => 9
  | .DeadlinePassed => 10
  | .DeadlineNotFound => 11
  | .SignatureExpired => 12
  | .TokenAlreadyMinted => 13
  | .TokenDoesNotExist => 14
  | .SignersListEmpty => 15

/-- How a contract call aborts: with a typed contract error
(`panic_with_error!`), or with a bare panic (`panic!`, `unwrap` on `None`),
modelled as `trap`.  Either way the host rolls back every write. -/
inductive Fail where
  | err : Error → Fail
  | trap : Fail
deriving DecidableEq, Repr

/-- Lookup in an association-list map (Soroban `Map::get`). -/
def aget {V : Type} : List (Nat × V) → Nat → Option V
  | [], _ => none
  | (k', v) :: rest, k => if k' = k then some v else aget rest k

/-- Update in an association-list map (Soroban `Map::set`): replaces the
value at an existing key, appends a new entry otherwise. -/
def aset {V : Type} : List (Nat × V) → Nat → V → List (Nat × V)
  | [], k, v => [(k, v)]
  | (k', v') :: rest, k, v =>
      if k' = k then (k, v) :: rest else (k', v') :: aset rest k v

/-- The persistent storage of the contract, one field per storage symbol. -/
structure ContractState where
  owners : List (Nat × Nat)
  uris : List (Nat × Nat)
  t2dhash : List (Nat × Nat)
  deadlines : List (Nat × Nat)
  docsign : List (Nat × List (Nat × SignatureStatus))
  nonces : List (Nat × Nat)
  admin : Option Nat
  test : Nat
deriving DecidableEq, Repr

/-- Storage of a freshly deployed contract instance: every persistent key
is absent, so every map read defaults to the empty map. -/
def initialState : ContractState :=
  { owners := [], uris := [], t2dhash := [], deadlines := [], docsign := []
    nonces := [], admin := none, test := 0 }

/-- Modelled from the spec: `src/Rel/src/admin.rs` (imported as
`has_administrator` / `read_administrator` / `write_administrator`) is not
among the sources; the spec describes `ADMIN` as an optional singleton
holding the administrator identity.  `has_administrator` tests its
presence. -/
def has_administrator (s : ContractState) : Bool :=
  s.admin.isSome

/-- Modelled from the spec: reads the `ADMIN` singleton (absent on an
uninitialised instance). -/
def read_administrator (s : ContractState) : Option Nat :=
  s.admin

/-- Modelled from the spec: stores the administrator identity in the
`ADMIN` singleton. -/
def write_administrator (s : ContractState) (admin : Nat) : ContractState :=
  { s with admin := some admin }

/-- `init(e, admin, token_id)`: rejects a second initialisation with a bare
panic; otherwise records the administrator.  The `token_id` parameter is
accepted but unused. -/
def init (s : ContractState) (admin : Nat) (tokenId : Nat) :
    Except Fail ContractState :=
  if has_administrator s then .error .trap
  else .ok (write_administrator s admin)

/-- `exists(e, token_id, owners)` from `erc_functions.rs`: whether the
owners map has an entry for the token. -/
def tokenExists (tokenId : Nat) (owners : List (Nat × Nat)) : Bool :=
  (aget owners tokenId).isSome

/-- `require_minted(e, token_id)`: reads `OWNERS` and tests membership. -/
def require_minted (s : ContractState) (tokenId : Nat) : Bool :=
  tokenExists tokenId s.owners

/-- Internal `mint(e, token_id, to)`: fails with `TokenAlreadyMinted` when
the token already has an owner, otherwise records `to` as the owner and
persists `OWNERS` (the mint event carries no state and is omitted). -/
def mint (s : ContractState) (tokenId : Nat) (toAddr : Nat) :
    Except Fail ContractState :=
  if tokenExists tokenId s.owners then .error (.err .TokenAlreadyMinted)
  else .ok { s with owners := aset s.owners tokenId toAddr }

/-- Internal `set_token_uri(e, token_id, token_uri)`: fails with
`TokenDoesNotExist` when the token has no owner, otherwise records the URI
and persists `URIS`. -/
def set_token_uri (s : ContractState) (tokenId : Nat) (tokenUri : Nat) :
    Except Fail ContractState :=
  if tokenExists tokenId s.owners = false then .error (.err .TokenDoesNotExist)
  else .ok { s with uris := aset s.uris tokenId tokenUri }

/-- `safe_mint(e, to, token_id, meta_uri, signers, document_hash,
deadline)`: rejects an empty signer list, mints the token, records the URI,
the document hash and the deadline, and enrolls every signer as `Waiting`;
returns the token id. -/
def safe_mint (s : ContractState) (toAddr : Nat) (tokenId : Nat) (metaUri : Nat)
    (signers : List Nat) (documentHash : Nat) (deadline : Nat) :
    Except Fail (Nat × ContractState) :=
  if signers.isEmpty then .error (.err .SignersListEmpty)
  else
    match mint s tokenId toAddr with
    | .error f => .error f
    | .ok s1 =>
      match set_token_uri s1 tokenId metaUri with
      | .error f => .error f
      | .ok s2 =>
        let token_to_doc_hashes := aset s2.t2dhash tokenId documentHash
        let doc_signing_deadlines := aset s2.deadlines tokenId deadline
        let inner_doc_signings :=
          signers.foldl (fun m signer => aset m signer SignatureStatus.Waiting) []
        let doc_signings := aset s2.docsign tokenId inner_doc_signings
        .ok (tokenId,
          { s2 with
            t2dhash := token_to_doc_hashes
            deadlines := doc_signing_deadlines
            docsign := doc_signings })

/-- Internal `verify_signer(e, signer, token_id)`: after host
authentication of the signer, re-reads `DOCSIGN`, unwraps the token's inner
map and the signer's entry (a bare panic if either is absent) and rejects
any stored status other than `Waiting` with `AlreadySigned`.  Returns the
abort, if any. -/
def verify_signer (s : ContractState) (signer : Nat) (tokenId : Nat) :
    Option Fail :=
  match aget s.docsign tokenId with
  | none => some .trap
  | some inner =>
    match aget inner signer with
    | none => some .trap
    | some st =>
      if st ≠ SignatureStatus.Waiting then some (.err .AlreadySigned) else none

/-- `sign_document(e, document_hash, signer, status, token_id)` at ledger
timestamp `now`: runs the validation chain of the source in order and, on
success, stores the caller-supplied `status` for `(token_id, signer)` and
persists `DOCSIGN`.  The nonce update of the source mutates only the local
copy of the `NONCES` map — the source never issues a persistent `set` for
`NONCES` — so the stored `nonces` field is returned unchanged.  Returns the
updated `DOCSIGN` map together with the new state. -/
def sign_document (now : Nat) (s : ContractState) (documentHash : Nat)
    (signer : Nat) (status : SignatureStatus) (tokenId : Nat) :
    Except Fail ((List (Nat × List (Nat × SignatureStatus))) × ContractState) :=
  if require_minted s tokenId = false then .error (.err .TokenNotMinted)
  else
    let doc_signings := s.docsign
    if doc_signings.isEmpty then .error (.err .DocumentSigningsIsEmpty)
    else
      match aget doc_signings tokenId with
      | none => .error (.err .DocumentSigningsIsEmpty)
      | some signing =>
        match aget signing signer with
        | none => .error (.err .SignerDoesNotExist)
        | some stored =>
          if stored = SignatureStatus.NotASigner then .error (.err .NotASigner)
          else if stored = SignatureStatus.Signed then .error (.err .AlreadySigned)
          else
            let token_to_doc_hashes := s.t2dhash
            if token_to_doc_hashes.isEmpty then .error (.err .DocumentHashesIsEmpty)
            else
              match aget token_to_doc_hashes tokenId with
              | none => .error (.err .HashNotFound)
              | some hash =>
                if hash ≠ documentHash then
                  .error (.err .DocumentHashesDoesNotMatchTokenHash)
                else
                  let doc_signing_deadlines := s.deadlines
                  if doc_signing_deadlines.isEmpty then .error (.err .DeadlinesIsEmpty)
                  else
                    match aget doc_signing_deadlines tokenId with
                    | none => .error (.err .DeadlineNotFound)
                    | some deadline =>
                      if now > deadline then .error (.err .DeadlinePassed)
                      else
                        match verify_signer s signer tokenId with
                        | some f => .error f
                        | none =>
                          if now > deadline then .error (.err .SignatureExpired)
                          else
                            -- The nonce update of the source: it writes only
                            -- the local map, which is dropped (no persistent
                            -- set for NONCES exists in the source).
                            let last_nonce := (aget s.nonces signer).getD 0
                            let _signature_nonces :=
                              if s.nonces.isEmpty then aset s.nonces signer last_nonce
                              else aset s.nonces signer (last_nonce + 1)
                            match aget doc_signings tokenId with
                            | none => .error .trap
                            | some inner =>
                              let inner_signings := aset inner signer status
                              let doc_signings2 := aset doc_signings tokenId inner_signings
                              .ok (doc_signings2, { s with docsign := doc_signings2 })

/-- `set_test_int(e)`: bumps the debug counter. -/
def set_test_int (s : ContractState) : ContractState :=
  { s with test := s.test + 1 }

/-- `get_admin(e)`: the stored administrator (absent if uninitialised). -/
def get_admin (s : ContractState) : Option Nat :=
  read_administrator s

/-- `get_nonces(e, user)`: the stored nonce of `user`, defaulting to 0. -/
def get_nonces (s : ContractState) (user : Nat) : Nat :=
  (aget s.nonces user).getD 0

/-- `get_owners(e)`: the full `OWNERS` map. -/
def get_owners (s : ContractState) : List (Nat × Nat) :=
  s.owners

/-- `get_token_uris(e)`: the full `URIS` map. -/
def get_token_uris (s : ContractState) : List (Nat × Nat) :=
  s.uris

/-- `get_td_hashes(e)`: the full `T2DHASH` map. -/
def get_td_hashes (s : ContractState) : List (Nat × Nat) :=
  s.t2dhash

/-- `get_deadlines(e)`: the full `DEADLINES` map. -/
def get_deadlines (s : ContractState) : List (Nat × Nat) :=
  s.deadlines

/-- `get_documents(e)`: the full `DOCSIGN` map. -/
def get_documents (s : ContractState) :
    List (Nat × List (Nat × SignatureStatus)) :=
  s.docsign

/-- `get_document(e, doc_id)`: the inner signer map of one token,
defaulting to the empty map. -/
def get_document (s : ContractState) (docId : Nat) :
    List (Nat × SignatureStatus) :=
  (aget s.docsign docId).getD []

/-- One successful public state-changing call of the contract. -/
inductive Step : ContractState → ContractState → Prop where
  | init {s s' : ContractState} {a t : Nat} :
      init s a t = .ok s' → Step s s'
  | safe_mint {s s' : ContractState} {toAddr t u h d r : Nat} {sg : List Nat} :
      safe_mint s toAddr t u sg h d = .ok (r, s') → Step s s'
  | sign_document {now h sg t : Nat} {s s' : ContractState}
      {st : SignatureStatus} {m : List (Nat × List (Nat × SignatureStatus))} :
      sign_document now s h sg st t = .ok (m, s') → Step s s'
  | set_test_int {s : ContractState} : Step s (set_test_int s)

/-- States reachable from a fresh instance by successful calls. -/
inductive Reachable : ContractState → Prop where
  | base : Reachable initialState
  | step {s s' : ContractState} : Reachable s → Step s s' → Reachable s'

/-! ### Association-list map lemmas -/

theorem aget_aset {V : Type} (m : List (Nat × V)) (k : Nat) (v : V) (k' : Nat) :
    aget (aset m k v) k' = if k = k' then some v else aget m k' := by
  induction m with
  | nil =>
      by_cases h : k = k' <;> simp [aset, aget, h]
  | cons p rest ih =>
      obtain ⟨k0, v0⟩ := p
      by_cases h0 : k0 = k
      · subst h0
        by_cases h1 : k0 = k' <;> simp [aset, aget, h1]
      · by_cases h1 : k0 = k'
        · subst h1
          have hk : ¬ k = k0 := fun hh => h0 hh.symm
          simp [aset, aget, h0, hk]
        · simp [aset, aget, h0, h1, ih]

theorem isEmpty_false_of_aget {V : Type} {m : List (Nat × V)} {k : Nat} {v : V}
    (h : aget m k = some v) : m.isEmpty = false := by
  cases m with
  | nil => simp [aget] at h
  | cons p rest => simp

/-! ### Forward evaluation lemmas for sign_document -/

theorem sign_eval_not_minted {now : Nat} {s : ContractState} {h sg t : Nat}
    {st : SignatureStatus} (hm : require_minted s t = false) :
    sign_document now s h sg st t = .error (.err .TokenNotMinted) := by
  simp [sign_document, hm]

theorem sign_eval_docsign_none {now : Nat} {s : ContractState} {h sg t : Nat}
    {st : SignatureStatus} (hm : require_minted s t = true)
    (hds : aget s.docsign t = none) :
    sign_document now s h sg st t = .error (.err .DocumentSigningsIsEmpty) := by
  by_cases he : s.docsign.isEmpty = true <;> simp [sign_document, hm, hds, he]

theorem sign_eval_signer_none {now : Nat} {s : ContractState} {h sg t : Nat}
    {st : SignatureStatus} {inner : List (Nat × SignatureStatus)}
    (hm : require_minted s t = true) (hds : aget s.docsign t = some inner)
    (hsg : aget inner sg = none) :
    sign_document now s h sg st t = .error (.err .SignerDoesNotExist) := by
  simp [sign_document, hm, hds, hsg, isEmpty_false_of_aget hds]

theorem sign_eval_nas {now : Nat} {s : ContractState} {h sg t : Nat}
    {st : SignatureStatus} {inner : List (Nat × SignatureStatus)}
    (hm : require_minted s t = true) (hds : aget s.docsign t = some inner)
    (hsg : aget inner sg = some SignatureStatus.NotASigner) :
    sign_document now s h sg st t = .error (.err .NotASigner) := by
  simp [sign_document, hm, hds, hsg, isEmpty_false_of_aget hds]

theorem sign_eval_signed {now : Nat} {s : ContractState} {h sg t : Nat}
    {st : SignatureStatus} {inner : List (Nat × SignatureStatus)}
    (hm : require_minted s t = true) (hds : aget s.docsign t = some inner)
    (hsg : aget inner sg = some SignatureStatus.Signed) :
    sign_document now s h sg st t = .error (.err .AlreadySigned) := by
  simp [sign_document, hm, hds, hsg, isEmpty_false_of_aget hds]

theorem sign_fails_of_t2d_none {now : Nat} {s : ContractState} {h sg t : Nat}
    {st : SignatureStatus} {inner : List (Nat × SignatureStatus)}
    {stored : SignatureStatus}
    (hm : require_minted s t = true) (hds : aget s.docsign t = some inner)
    (hsg : aget inner sg = some stored)
    (h1 : stored ≠ SignatureStatus.NotASigner)
    (h2 : stored ≠ SignatureStatus.Signed)
    (ht : aget s.t2dhash t = none) :
    sign_document now s h sg st t = .error (.err .DocumentHashesIsEmpty) ∨
    sign_document now s h sg st t = .error (.err .HashNotFound) := by
  by_cases he : s.t2dhash.isEmpty = true
  · exact .inl
      (by simp [sign_document, hm, hds, hsg, isEmpty_false_of_aget hds, h1, h2, he])
  · exact .inr
      (by simp [sign_document, hm, hds, hsg, isEmpty_false_of_aget hds, h1, h2, he, ht])

theorem sign_eval_hash_mismatch {now : Nat} {s : ContractState} {h sg t : Nat}
    {st : SignatureStatus} {inner : List (Nat × SignatureStatus)}
    {stored : SignatureStatus} {h0 : Nat}
    (hm : require_minted s t = true) (hds : aget s.docsign t = some inner)
    (hsg : aget inner sg = some stored)
    (h1 : stored ≠ SignatureStatus.NotASigner)
    (h2 : stored ≠ SignatureStatus.Signed)
    (ht : aget s.t2dhash t = some h0) (hne : h0 ≠ h) :
    sign_document now s h sg st t =
      .error (.err .DocumentHashesDoesNotMatchTokenHash) := by
  simp [sign_document, hm, hds, hsg, isEmpty_false_of_aget hds, h1, h2, ht,
    isEmpty_false_of_aget ht, hne]

theorem sign_fails_of_deadline_none {now : Nat} {s : ContractState}
    {h sg t : Nat} {st : SignatureStatus} {inner : List (Nat × SignatureStatus)}
    {stored : SignatureStatus}
    (hm : require_minted s t = true) (hds : aget s.docsign t = some inner)
    (hsg : aget inner sg = some stored)
    (h1 : stored ≠ SignatureStatus.NotASigner)
    (h2 : stored ≠ SignatureStatus.Signed)
    (ht : aget s.t2dhash t = some h)
    (hd : aget s.deadlines t = none) :
    sign_document now s h sg st t = .error (.err .DeadlinesIsEmpty) ∨
    sign_document now s h sg st t = .error (.err .DeadlineNotFound) := by
  by_cases he : s.deadlines.isEmpty = true
  · exact .inl
      (by simp [sign_document, hm, hds, hsg, isEmpty_false_of_aget hds, h1, h2, ht,
        isEmpty_false_of_aget ht, he])
  · exact .inr
      (by simp [sign_document, hm, hds, hsg, isEmpty_false_of_aget hds, h1, h2, ht,
        isEmpty_false_of_aget ht, he, hd])

theorem sign_eval_deadline_passed {now : Nat} {s : ContractState}
    {h sg t : Nat} {st : SignatureStatus} {inner : List (Nat × SignatureStatus)}
    {stored : SignatureStatus} {d : Nat}
    (hm : require_minted s t = true) (hds : aget s.docsign t = some inner)
    (hsg : aget inner sg = some stored)
    (h1 : stored ≠ SignatureStatus.NotASigner)
    (h2 : stored ≠ SignatureStatus.Signed)
    (ht : aget s.t2dhash t = some h)
    (hd : aget s.deadlines t = some d) (hlt : d < now) :
    sign_document now s h sg st t = .error (.err .DeadlinePassed) := by
  simp [sign_document, hm, hds, hsg, isEmpty_false_of_aget hds, h1, h2, ht,
    isEmpty_false_of_aget ht, hd, isEmpty_false_of_aget hd, hlt]

theorem sign_eval_not_waiting {now : Nat} {s : ContractState}
    {h sg t : Nat} {st : SignatureStatus} {inner : List (Nat × SignatureStatus)}
    {stored : SignatureStatus} {d : Nat}
    (hm : require_minted s t = true) (hds : aget s.docsign t = some inner)
    (hsg : aget inner sg = some stored)
    (h1 : stored ≠ SignatureStatus.NotASigner)
    (h2 : stored ≠ SignatureStatus.Signed)
    (ht : aget s.t2dhash t = some h)
    (hd : aget s.deadlines t = some d) (hle : now ≤ d)
    (hw : stored ≠ SignatureStatus.Waiting) :
    sign_document now s h sg st t = .error (.err .AlreadySigned) := by
  have hv : verify_signer s sg t = some (.err .AlreadySigned) := by
    simp [verify_signer, hds, hsg, hw]
  have hnlt : ¬ d < now := by omega
  simp [sign_document, hm, hds, hsg, isEmpty_false_of_aget hds, h1, h2, ht,
    isEmpty_false_of_aget ht, hd, isEmpty_false_of_aget hd, hnlt, hv]

theorem sign_eval_success {now : Nat} {s : ContractState}
    {h sg t : Nat} {st : SignatureStatus} {inner : List (Nat × SignatureStatus)}
    {d : Nat}
    (hm : require_minted s t = true) (hds : aget s.docsign t = some inner)
    (hsg : aget inner sg = some SignatureStatus.Waiting)
    (ht : aget s.t2dhash t = some h)
    (hd : aget s.deadlines t = some d) (hle : now ≤ d) :
    sign_document now s h sg st t =
      .ok (aset s.docsign t (aset inner sg st),
        { s with docsign := aset s.docsign t (aset inner sg st) }) := by
  have hv : verify_signer s sg t = none := by
    simp [verify_signer, hds, hsg]
  have hnlt : ¬ d < now := by omega
  simp [sign_document, hm, hds, hsg, isEmpty_false_of_aget hds, ht,
    isEmpty_false_of_aget ht, hd, isEmpty_false_of_aget hd, hnlt, hv]

/-- Success inversion for `sign_document`: a successful call implies the
token is minted, the signer is enrolled with stored status `Waiting`, the
provided hash equals the stored hash, the deadline has not passed, and the
result is exactly the old state with the one `DOCSIGN` entry updated to the
caller-supplied status. -/
theorem sign_document_ok_inv {now : Nat} {s : ContractState}
    {h sg t : Nat} {st : SignatureStatus}
    {m : List (Nat × List (Nat × SignatureStatus))} {s' : ContractState}
    (hok : sign_document now s h sg st t = .ok (m, s')) :
    (aget s.owners t).isSome = true ∧
    ∃ inner, aget s.docsign t = some inner ∧
      aget inner sg = some SignatureStatus.Waiting ∧
      aget s.t2dhash t = some h ∧
      (∃ d, aget s.deadlines t = some d ∧ now ≤ d) ∧
      m = aset s.docsign t (aset inner sg st) ∧
      s' = { s with docsign := m } := by
  have hm : require_minted s t = true := by
    cases hm0 : require_minted s t
    · rw [sign_eval_not_minted hm0] at hok; exact Except.noConfusion hok
    · rfl
  refine ⟨hm, ?_⟩
  cases hds : aget s.docsign t with
  | none =>
      rw [sign_eval_docsign_none hm hds] at hok; exact Except.noConfusion hok
  | some inner =>
  cases hsg : aget inner sg with
  | none =>
      rw [sign_eval_signer_none hm hds hsg] at hok; exact Except.noConfusion hok
  | some stored =>
  have h1 : stored ≠ SignatureStatus.NotASigner := by
    intro hh; subst hh
    rw [sign_eval_nas hm hds hsg] at hok; exact Except.noConfusion hok
  have h2 : stored ≠ SignatureStatus.Signed := by
    intro hh; subst hh
    rw [sign_eval_signed hm hds hsg] at hok; exact Except.noConfusion hok
  cases ht : aget s.t2dhash t with
  | none =>
      rcases @sign_fails_of_t2d_none now s h sg t st inner stored hm hds hsg h1 h2 ht
        with hf | hf <;> (rw [hf] at hok; exact Except.noConfusion hok)
  | some h0 =>
  have hh0 : h0 = h := by
    by_contra hne
    rw [sign_eval_hash_mismatch hm hds hsg h1 h2 ht hne] at hok
    exact Except.noConfusion hok
  subst hh0
  cases hd : aget s.deadlines t with
  | none =>
      rcases @sign_fails_of_deadline_none now s h0 sg t st inner stored hm hds hsg h1 h2 ht hd
        with hf | hf <;> (rw [hf] at hok; exact Except.noConfusion hok)
  | some d =>
  have hle : now ≤ d := by
    by_contra hgt
    have hlt : d < now := by omega
    rw [sign_eval_deadline_passed hm hds hsg h1 h2 ht hd hlt] at hok
    exact Except.noConfusion hok
  have hw : stored = SignatureStatus.Waiting := by
    by_contra hne
    rw [sign_eval_not_waiting hm hds hsg h1 h2 ht hd hle hne] at hok
    exact Except.noConfusion hok
  subst hw
  rw [sign_eval_success hm hds hsg ht hd hle] at hok
  have hpair := Except.ok.inj hok
  have hfst : aset s.docsign t (aset inner sg st) = m := congrArg Prod.fst hpair
  have hsnd : ContractState.mk s.owners s.uris s.t2dhash s.deadlines
      (aset s.docsign t (aset inner sg st)) s.nonces s.admin s.test = s' :=
    congrArg Prod.snd hpair
  exact ⟨inner, rfl, hsg, rfl, ⟨d, rfl, hle⟩, hfst.symm, by rw [← hsnd, hfst]⟩

/-- Classification of `sign_document` outcomes: the call either succeeds or
aborts with a contract error; `SignatureExpired` is never produced (both
deadline guards compare the same timestamp), and `DeadlinePassed` is
produced only when the stored deadline of the token is before `now`. -/
theorem sign_document_cases (now : Nat) (s : ContractState) (h sg t : Nat)
    (st : SignatureStatus) :
    (∃ m s', sign_document now s h sg st t = .ok (m, s')) ∨
    (∃ e, sign_document now s h sg st t = .error (.err e) ∧
      e ≠ Error.SignatureExpired ∧
      (e = Error.DeadlinePassed → ∃ d, aget s.deadlines t = some d ∧ d < now)) := by
  cases hm : require_minted s t with
  | false => exact .inr ⟨.TokenNotMinted, sign_eval_not_minted hm, nofun, nofun⟩
  | true =>
  cases hds : aget s.docsign t with
  | none => exact .inr ⟨.DocumentSigningsIsEmpty, sign_eval_docsign_none hm hds, nofun, nofun⟩
  | some inner =>
  cases hsg : aget inner sg with
  | none => exact .inr ⟨.SignerDoesNotExist, sign_eval_signer_none hm hds hsg, nofun, nofun⟩
  | some stored =>
  by_cases h1 : stored = SignatureStatus.NotASigner
  · subst h1
    exact .inr ⟨.NotASigner, sign_eval_nas hm hds hsg, nofun, nofun⟩
  by_cases h2 : stored = SignatureStatus.Signed
  · subst h2
    exact .inr ⟨.AlreadySigned, sign_eval_signed hm hds hsg, nofun, nofun⟩
  cases ht : aget s.t2dhash t with
  | none =>
      rcases @sign_fails_of_t2d_none now s h sg t st inner stored hm hds hsg h1 h2 ht
        with hf | hf
      · exact .inr ⟨.DocumentHashesIsEmpty, hf, nofun, nofun⟩
      · exact .inr ⟨.HashNotFound, hf, nofun, nofun⟩
  | some h0 =>
  by_cases hh0 : h0 = h
  case neg =>
    exact .inr ⟨.DocumentHashesDoesNotMatchTokenHash,
      sign_eval_hash_mismatch hm hds hsg h1 h2 ht hh0, nofun, nofun⟩
  case pos =>
  subst hh0
  cases hd : aget s.deadlines t with
  | none =>
      rcases @sign_fails_of_deadline_none now s h0 sg t st inner stored hm hds hsg h1 h2 ht hd
        with hf | hf
      · exact .inr ⟨.DeadlinesIsEmpty, hf, nofun, nofun⟩
      · exact .inr ⟨.DeadlineNotFound, hf, nofun, nofun⟩
  | some d =>
  by_cases hlt : d < now
  · exact .inr ⟨.DeadlinePassed,
      sign_eval_deadline_passed hm hds hsg h1 h2 ht hd hlt, nofun,
      fun _ => ⟨d, rfl, hlt⟩⟩
  · have hle : now ≤ d := by omega
    by_cases hw : stored = SignatureStatus.Waiting
    · subst hw
      exact .inl ⟨_, _, sign_eval_success hm hds hsg ht hd hle⟩
    · exact .inr ⟨.AlreadySigned,
        sign_eval_not_waiting hm hds hsg h1 h2 ht hd hle hw, nofun, nofun⟩

/-! ### Forward evaluation and inversion lemmas for safe_mint -/

theorem safe_mint_eval_empty (s : ContractState) (toAddr t u h d : Nat) :
    safe_mint s toAddr t u [] h d = .error (.err .SignersListEmpty) := by
  simp [safe_mint]

theorem safe_mint_eval_minted {s : ContractState} {toAddr t u h d o : Nat}
    {sg : List Nat} (ho : aget s.owners t = some o) (hsg : sg ≠ []) :
    safe_mint s toAddr t u sg h d = .error (.err .TokenAlreadyMinted) := by
  have he : sg.isEmpty = false := by
    cases sg with
    | nil => exact absurd rfl hsg
    | cons a l => simp
  simp [safe_mint, he, mint, tokenExists, ho]

theorem safe_mint_eval_success {s : ContractState} {toAddr t u h d : Nat}
    {sg : List Nat} (ho : aget s.owners t = none) (hsg : sg ≠ []) :
    safe_mint s toAddr t u sg h d =
      .ok (t,
        { s with
          owners := aset s.owners t toAddr
          uris := aset s.uris t u
          t2dhash := aset s.t2dhash t h
          deadlines := aset s.deadlines t d
          docsign := aset s.docsign t
            (sg.foldl (fun m signer => aset m signer SignatureStatus.Waiting) []) }) := by
  have he : sg.isEmpty = false := by
    cases sg with
    | nil => exact absurd rfl hsg
    | cons a l => simp
  have hset : aget (aset s.owners t toAddr) t = some toAddr := by
    simp [aget_aset]
  simp [safe_mint, he, mint, tokenExists, ho, set_token_uri, hset]

/-- Success inversion for `safe_mint`: a successful call implies the signer
list was non-empty and the token unminted, and the result registers the
token in all five tables at once. -/
theorem safe_mint_ok_inv {s s' : ContractState} {toAddr t u h d r : Nat}
    {sg : List Nat} (hok : safe_mint s toAddr t u sg h d = .ok (r, s')) :
    sg ≠ [] ∧ aget s.owners t = none ∧ r = t ∧
    s' = { s with
      owners := aset s.owners t toAddr
      uris := aset s.uris t u
      t2dhash := aset s.t2dhash t h
      deadlines := aset s.deadlines t d
      docsign := aset s.docsign t
        (sg.foldl (fun m signer => aset m signer SignatureStatus.Waiting) []) } := by
  have hsg : sg ≠ [] := by
    intro hh; subst hh
    rw [safe_mint_eval_empty] at hok; exact Except.noConfusion hok
  have ho : aget s.owners t = none := by
    cases ho0 : aget s.owners t with
    | none => rfl
    | some o =>
        rw [safe_mint_eval_minted ho0 hsg] at hok; exact Except.noConfusion hok
  rw [safe_mint_eval_success ho hsg] at hok
  have hpair := Except.ok.inj hok
  exact ⟨hsg, ho, (congrArg Prod.fst hpair).symm, (congrArg Prod.snd hpair).symm⟩

/-! ### Reachability invariants -/

/-- Cross-table key consistency (spec invariant I1): a token id has an
owner exactly when it has a URI, a document hash, a deadline and a signer
map. -/
def TablesAligned (s : ContractState) : Prop :=
  ∀ t, ((aget s.owners t).isSome ↔ (aget s.uris t).isSome) ∧
       ((aget s.owners t).isSome ↔ (aget s.t2dhash t).isSome) ∧
       ((aget s.owners t).isSome ↔ (aget s.deadlines t).isSome) ∧
       ((aget s.owners t).isSome ↔ (aget s.docsign t).isSome)

theorem tablesAligned_of_reachable {s : ContractState} (hr : Reachable s) :
    TablesAligned s := by
  induction hr with
  | base =>
      intro t
      simp [initialState, aget]
  | step hr hstep ih =>
      cases hstep with
      | init hok =>
          rename_i a0 t0
          unfold init at hok
          split at hok
          · exact Except.noConfusion hok
          · cases hok
            intro t
            exact ih t
      | safe_mint hok =>
          rename_i toA t0 u0 h0 d0 r0 sg0
          obtain ⟨hsg, ho, hrt, hs'⟩ := safe_mint_ok_inv hok
          subst hs'
          intro t'
          rcases ih t' with ⟨i1, i2, i3, i4⟩
          simp only [aget_aset]
          by_cases ht0 : t0 = t'
          · simp [ht0]
          · simp only [if_neg ht0]
            exact ⟨i1, i2, i3, i4⟩
      | sign_document hok =>
          rename_i now0 h0 sg0 t0 st0 m0
          obtain ⟨hmin, inner, hds, hsgn, hht, ⟨d, hd, hle⟩, hm, hs'⟩ :=
            sign_document_ok_inv hok
          subst hs'
          subst hm
          intro t'
          rcases ih t' with ⟨i1, i2, i3, i4⟩
          refine ⟨i1, i2, i3, ?_⟩
          simp only [aget_aset]
          by_cases ht0 : t0 = t'
          · subst ht0
            simp [hmin]
          · simp only [if_neg ht0]
            exact i4
      | set_test_int =>
          intro t
          exact ih t

/-- Every value of the inner map built by `safe_mint` over the signer list
is `Waiting` (or came from the accumulator). -/
theorem aget_foldl_waiting (signers : List Nat)
    (m0 : List (Nat × SignatureStatus)) (k : Nat) (st : SignatureStatus)
    (h : aget (signers.foldl (fun m signer => aset m signer SignatureStatus.Waiting) m0) k
      = some st) :
    st = SignatureStatus.Waiting ∨ aget m0 k = some st := by
  induction signers generalizing m0 with
  | nil => exact .inr h
  | cons a rest ih =>
      rcases ih (aset m0 a SignatureStatus.Waiting) h with hw | hacc
      · exact .inl hw
      · rw [aget_aset] at hacc
        by_cases ha : a = k
        · rw [if_pos ha] at hacc
          exact .inl (Option.some.inj hacc).symm
        · rw [if_neg ha] at hacc
          exact .inr hacc

/-- `NotASigner` does not occur as a stored value in `DOCSIGN`. -/
def NoStoredNotASigner (s : ContractState) : Prop :=
  ∀ t inner, aget s.docsign t = some inner →
    ∀ sg st, aget inner sg = some st → st ≠ SignatureStatus.NotASigner

/-- One successful state-changing call whose `sign_document` status
argument is not `NotASigner` (the discipline the spec expects of
callers). -/
inductive StepGuarded : ContractState → ContractState → Prop where
  | init {s s' : ContractState} {a t : Nat} :
      init s a t = .ok s' → StepGuarded s s'
  | safe_mint {s s' : ContractState} {toAddr t u h d r : Nat} {sg : List Nat} :
      safe_mint s toAddr t u sg h d = .ok (r, s') → StepGuarded s s'
  | sign_document {now h sg t : Nat} {s s' : ContractState}
      {st : SignatureStatus} {m : List (Nat × List (Nat × SignatureStatus))} :
      st ≠ SignatureStatus.NotASigner →
      sign_document now s h sg st t = .ok (m, s') → StepGuarded s s'
  | set_test_int {s : ContractState} : StepGuarded s (set_test_int s)

/-- States reachable from a fresh instance when every `sign_document` call
supplies a status other than `NotASigner`. -/
inductive ReachableGuarded : ContractState → Prop where
  | base : ReachableGuarded initialState
  | step {s s' : ContractState} :
      ReachableGuarded s → StepGuarded s s' → ReachableGuarded s'

theorem noStoredNAS_of_reachableGuarded {s : ContractState}
    (hr : ReachableGuarded s) : NoStoredNotASigner s := by
  induction hr with
  | base =>
      intro t inner hds
      simp [initialState, aget] at hds
  | step hr hstep ih =>
      cases hstep with
      | init hok =>
          unfold init at hok
          split at hok
          · exact Except.noConfusion hok
          · cases hok
            exact ih
      | safe_mint hok =>
          rename_i toA t0 u0 h0 d0 r0 sg0
          obtain ⟨hsg, ho, hrt, hs'⟩ := safe_mint_ok_inv hok
          subst hs'
          intro t' inner' hds' sg' st' hin' hnas
          rw [aget_aset] at hds'
          by_cases ht0 : t0 = t'
          · rw [if_pos ht0] at hds'
            cases Option.some.inj hds'
            rcases aget_foldl_waiting sg0 [] sg' st' hin' with hw | habs
            · subst hnas; exact SignatureStatus.noConfusion hw.symm
            · simp [aget] at habs
          · rw [if_neg ht0] at hds'
            exact ih t' inner' hds' sg' st' hin' hnas
      | sign_document hst hok =>
          rename_i now0 h0 sg0 t0 st0 m0
          obtain ⟨hmin, inner, hds, hsgn, hht, ⟨d, hd, hle⟩, hm, hs'⟩ :=
            sign_document_ok_inv hok
          subst hs'
          subst hm
          intro t' inner' hds' sg' st' hin' hnas
          rw [aget_aset] at hds'
          by_cases ht0 : t0 = t'
          · rw [if_pos ht0] at hds'
            cases Option.some.inj hds'
            rw [aget_aset] at hin'
            by_cases hsg0 : sg0 = sg'
            · rw [if_pos hsg0] at hin'
              cases Option.some.inj hin'
              exact hst hnas
            · rw [if_neg hsg0] at hin'
              exact ih t0 inner hds sg' st' hin' hnas
          · rw [if_neg ht0] at hds'
            exact ih t' inner' hds' sg' st' hin' hnas
      | set_test_int =>
          intro t inner hds
          exact ih t inner hds

/-! ### Concrete scenario states (spec §8 scenarios 2 and 3; addresses,
URIs and hashes are opaque numbers: admin 100, signers 1 and 2, URIs 10
and 11, hashes 20 and 21) -/

/-- State after `init(admin := 100)` on a fresh instance. -/
def s_init : ContractState :=
  { owners := [], uris := [], t2dhash := [], deadlines := [], docsign := []
    nonces := [], admin := some 100, test := 0 }

/-- State after `safe_mint(to := 100, token_id := 1, meta_uri := 10,
signers := [1, 2], document_hash := 20, deadline := 1000)`. -/
def s_mint1 : ContractState :=
  { owners := [(1, 100)], uris := [(1, 10)], t2dhash := [(1, 20)]
    deadlines := [(1, 1000)]
    docsign := [(1, [(1, SignatureStatus.Waiting), (2, SignatureStatus.Waiting)])]
    nonces := [], admin := some 100, test := 0 }

/-- State after signer 1 successfully signs token 1 at time 500. -/
def s_sign1 : ContractState :=
  { owners := [(1, 100)], uris := [(1, 10)], t2dhash := [(1, 20)]
    deadlines := [(1, 1000)]
    docsign := [(1, [(1, SignatureStatus.Signed), (2, SignatureStatus.Waiting)])]
    nonces := [], admin := some 100, test := 0 }

/-- State after `safe_mint(to := 100, token_id := 2, meta_uri := 11,
signers := [1], document_hash := 21, deadline := 1000)` on top of
`s_sign1`. -/
def s_mint2 : ContractState :=
  { owners := [(1, 100), (2, 100)], uris := [(1, 10), (2, 11)]
    t2dhash := [(1, 20), (2, 21)], deadlines := [(1, 1000), (2, 1000)]
    docsign := [(1, [(1, SignatureStatus.Signed), (2, SignatureStatus.Waiting)]),
                (2, [(1, SignatureStatus.Waiting)])]
    nonces := [], admin := some 100, test := 0 }

/-- State after signer 1 also successfully signs token 2 at time 500 (the
second system-wide successful sign by signer 1). -/
def s_sign2 : ContractState :=
  { owners := [(1, 100), (2, 100)], uris := [(1, 10), (2, 11)]
    t2dhash := [(1, 20), (2, 21)], deadlines := [(1, 1000), (2, 1000)]
    docsign := [(1, [(1, SignatureStatus.Signed), (2, SignatureStatus.Waiting)]),
                (2, [(1, SignatureStatus.Signed)])]
    nonces := [], admin := some 100, test := 0 }

/-- State after signer 1 stores `Rejected` for token 1 instead. -/
def s_rej : ContractState :=
  { owners := [(1, 100)], uris := [(1, 10)], t2dhash := [(1, 20)]
    deadlines := [(1, 1000)]
    docsign := [(1, [(1, SignatureStatus.Rejected), (2, SignatureStatus.Waiting)])]
    nonces := [], admin := some 100, test := 0 }

theorem reachable_s_init : Reachable s_init :=
  Reachable.step Reachable.base
    (Step.init (show init initialState 100 0 = .ok s_init from rfl))

theorem reachable_s_mint1 : Reachable s_mint1 :=
  Reachable.step reachable_s_init
    (Step.safe_mint
      (show safe_mint s_init 100 1 10 [1, 2] 20 1000 = .ok (1, s_mint1) from rfl))

theorem reachable_s_sign1 : Reachable s_sign1 :=
  Reachable.step reachable_s_mint1
    (Step.sign_document
      (show sign_document 500 s_mint1 20 1 SignatureStatus.Signed 1 =
        .ok ([(1, [(1, SignatureStatus.Signed), (2, SignatureStatus.Waiting)])], s_sign1)
        from rfl))

theorem reachable_s_rej : Reachable s_rej :=
  Reachable.step reachable_s_mint1
    (Step.sign_document
      (show sign_document 500 s_mint1 20 1 SignatureStatus.Rejected 1 =
        .ok ([(1, [(1, SignatureStatus.Rejected), (2, SignatureStatus.Waiting)])], s_rej)
        from rfl))

/-! ### Claim theorems -/

/-- C1 (code bug): the claim says that after a later successful sign by a
signer whose nonce was n, `get_nonces` returns n + 1.  The source computes
the incremented nonce only into a local copy of the `NONCES` map and never
issues a persistent `set` for `NONCES`, so the update is lost.  This
theorem evaluates the code on the spec's own scenario 3 (two successful
signs by signer 1): both signs succeed, the stored `NONCES` table is still
empty afterwards, and `get_nonces` returns 0 where the claim requires
0 + 1. -/
theorem C1_nonce_update_never_persisted :
    init initialState 100 0 = .ok s_init ∧
    safe_mint s_init 100 1 10 [1, 2] 20 1000 = .ok (1, s_mint1) ∧
    sign_document 500 s_mint1 20 1 SignatureStatus.Signed 1 =
      .ok ([(1, [(1, SignatureStatus.Signed), (2, SignatureStatus.Waiting)])], s_sign1) ∧
    safe_mint s_sign1 100 2 11 [1] 21 1000 = .ok (2, s_mint2) ∧
    sign_document 500 s_mint2 21 1 SignatureStatus.Signed 2 =
      .ok ([(1, [(1, SignatureStatus.Signed), (2, SignatureStatus.Waiting)]),
            (2, [(1, SignatureStatus.Signed)])], s_sign2) ∧
    s_sign1.nonces = [] ∧ s_sign2.nonces = [] ∧
    get_nonces s_sign1 1 = 0 ∧ get_nonces s_sign2 1 = 0 ∧
    get_nonces s_sign2 1 ≠ 0 + 1 :=
  ⟨rfl, rfl, rfl, rfl, rfl, rfl, rfl, rfl, rfl, by decide⟩

/-- C2: a successful `sign_document` changes only the `DOCSIGN` table; the
values stored under `OWNERS`, `URIS`, `T2DHASH`, `DEADLINES`, `NONCES`,
`ADMIN` and `TEST` are the same after the call as before it, and the new
`DOCSIGN` is exactly the returned map. -/
theorem C2_sign_document_frame (now : Nat) (s : ContractState) (h sg t : Nat)
    (st : SignatureStatus) (m : List (Nat × List (Nat × SignatureStatus)))
    (s' : ContractState)
    (hok : sign_document now s h sg st t = .ok (m, s')) :
    s'.owners = s.owners ∧ s'.uris = s.uris ∧ s'.t2dhash = s.t2dhash ∧
    s'.deadlines = s.deadlines ∧ s'.nonces = s.nonces ∧ s'.admin = s.admin ∧
    s'.test = s.test ∧ s'.docsign = m := by
  obtain ⟨_, inner, _, _, _, _, hm, hs'⟩ := sign_document_ok_inv hok
  subst hs'
  exact ⟨rfl, rfl, rfl, rfl, rfl, rfl, rfl, rfl⟩

theorem C2_sign_document_frame_witness :
    s_sign1.owners = s_mint1.owners ∧ s_sign1.uris = s_mint1.uris ∧
    s_sign1.t2dhash = s_mint1.t2dhash ∧ s_sign1.deadlines = s_mint1.deadlines ∧
    s_sign1.nonces = s_mint1.nonces ∧ s_sign1.admin = s_mint1.admin ∧
    s_sign1.test = s_mint1.test ∧
    s_sign1.docsign =
      [(1, [(1, SignatureStatus.Signed), (2, SignatureStatus.Waiting)])] :=
  C2_sign_document_frame 500 s_mint1 20 1 1 SignatureStatus.Signed
    [(1, [(1, SignatureStatus.Signed), (2, SignatureStatus.Waiting)])] s_sign1 rfl

/-- C3 counterexample: the claim says `NotASigner` is never stored for any
caller-supplied arguments, but `sign_document` stores the caller-supplied
status unchecked.  From the reachable state `s_mint1`, signer 1 calls
`sign_document` with status `NotASigner`; the call succeeds, the resulting
state is reachable, and `NotASigner` is stored in `DOCSIGN[1]` for
signer 1. -/
theorem C3_notasigner_storable :
    sign_document 500 s_mint1 20 1 SignatureStatus.NotASigner 1 =
      .ok ([(1, [(1, SignatureStatus.NotASigner), (2, SignatureStatus.Waiting)])],
        { s_mint1 with
          docsign := [(1, [(1, SignatureStatus.NotASigner), (2, SignatureStatus.Waiting)])] }) ∧
    Reachable { s_mint1 with
      docsign := [(1, [(1, SignatureStatus.NotASigner), (2, SignatureStatus.Waiting)])] } ∧
    aget [(1, SignatureStatus.NotASigner), (2, SignatureStatus.Waiting)] 1 =
      some SignatureStatus.NotASigner :=
  ⟨rfl,
   Reachable.step reachable_s_mint1
     (Step.sign_document
       (show sign_document 500 s_mint1 20 1 SignatureStatus.NotASigner 1 =
         .ok ([(1, [(1, SignatureStatus.NotASigner), (2, SignatureStatus.Waiting)])],
           { s_mint1 with
             docsign := [(1, [(1, SignatureStatus.NotASigner), (2, SignatureStatus.Waiting)])] })
         from rfl)),
   rfl⟩

/-- C3 (amended): in every state reachable by successful `init`,
`safe_mint` and `sign_document` calls in which every `sign_document` call
supplies a status other than `NotASigner`, every stored status in every
inner map of `DOCSIGN` is `Waiting`, `Signed` or `Rejected`.  (As stated
the claim is false: a `sign_document` call with the caller-supplied status
`NotASigner` stores it — see the counterexample.) -/
theorem C3_stored_statuses (s : ContractState) (hr : ReachableGuarded s) :
    ∀ t inner, aget s.docsign t = some inner →
      ∀ sg st, aget inner sg = some st →
        st = SignatureStatus.Waiting ∨ st = SignatureStatus.Signed ∨
        st = SignatureStatus.Rejected := by
  intro t inner hds sg st hin
  have hnas := noStoredNAS_of_reachableGuarded hr t inner hds sg st hin
  cases st with
  | NotASigner => exact absurd rfl hnas
  | Rejected => exact .inr (.inr rfl)
  | Signed => exact .inr (.inl rfl)
  | Waiting => exact .inl rfl

theorem C3_stored_statuses_witness :
    SignatureStatus.Signed = SignatureStatus.Waiting ∨
    SignatureStatus.Signed = SignatureStatus.Signed ∨
    SignatureStatus.Signed = SignatureStatus.Rejected :=
  C3_stored_statuses s_sign1
    (ReachableGuarded.step
      (ReachableGuarded.step
        (ReachableGuarded.step ReachableGuarded.base
          (StepGuarded.init (show init initialState 100 0 = .ok s_init from rfl)))
        (StepGuarded.safe_mint
          (show safe_mint s_init 100 1 10 [1, 2] 20 1000 = .ok (1, s_mint1) from rfl)))
      (StepGuarded.sign_document
        (show SignatureStatus.Signed ≠ SignatureStatus.NotASigner from nofun)
        (show sign_document 500 s_mint1 20 1 SignatureStatus.Signed 1 =
          .ok ([(1, [(1, SignatureStatus.Signed), (2, SignatureStatus.Waiting)])], s_sign1)
          from rfl)))
    1 [(1, SignatureStatus.Signed), (2, SignatureStatus.Waiting)] rfl
    1 SignatureStatus.Signed rfl

/-- C4: in every reachable state a token id is a key of `OWNERS` iff it is
a key of `URIS`, `T2DHASH`, `DEADLINES` and `DOCSIGN` (`TablesAligned`),
and a successful `safe_mint` establishes the entry in all five tables at
once. -/
theorem C4_five_tables (s : ContractState) (hr : Reachable s) :
    TablesAligned s ∧
    (∀ toAddr t u (sg : List Nat) h d r s',
      safe_mint s toAddr t u sg h d = .ok (r, s') →
      (aget s'.owners t).isSome = true ∧ (aget s'.uris t).isSome = true ∧
      (aget s'.t2dhash t).isSome = true ∧ (aget s'.deadlines t).isSome = true ∧
      (aget s'.docsign t).isSome = true) := by
  refine ⟨tablesAligned_of_reachable hr, ?_⟩
  intro toA t u sg h d r s' hok
  obtain ⟨hsg, ho, hrt, hs'⟩ := safe_mint_ok_inv hok
  subst hs'
  simp [aget_aset]

theorem C4_five_tables_witness :
    (aget s_mint1.owners 1).isSome = true ∧ (aget s_mint1.uris 1).isSome = true ∧
    (aget s_mint1.t2dhash 1).isSome = true ∧
    (aget s_mint1.deadlines 1).isSome = true ∧
    (aget s_mint1.docsign 1).isSome = true :=
  (C4_five_tables s_init reachable_s_init).2 100 1 10 [1, 2] 20 1000 1 s_mint1 rfl

/-- C5 counterexample: the claim says every subsequent `sign_document` call
by a signer whose stored status is `Signed` or `Rejected` fails with
`AlreadySigned` (code 4).  In the reachable state `s_rej` signer 1 has
stored status `Rejected` for token 1, yet a subsequent call with a wrong
document hash fails with `DocumentHashesDoesNotMatchTokenHash` (code 7),
not `AlreadySigned` — the hash check runs before the Waiting-guard. -/
theorem C5_rejected_wrong_hash_other_error :
    Reachable s_rej ∧
    aget s_rej.docsign 1 =
      some [(1, SignatureStatus.Rejected), (2, SignatureStatus.Waiting)] ∧
    aget [(1, SignatureStatus.Rejected), (2, SignatureStatus.Waiting)] 1 =
      some SignatureStatus.Rejected ∧
    sign_document 500 s_rej 99 1 SignatureStatus.Signed 1 =
      .error (.err .DocumentHashesDoesNotMatchTokenHash) ∧
    (Fail.err .DocumentHashesDoesNotMatchTokenHash ≠ Fail.err .AlreadySigned) ∧
    Error.code .DocumentHashesDoesNotMatchTokenHash = 7 :=
  ⟨reachable_s_rej, rfl, rfl, rfl, by decide, rfl⟩

/-- C5 (amended): in every reachable state, `Signed` and `Rejected` are
terminal for a (token, signer) pair: no `sign_document` call by that signer
for that token ever succeeds, so the stored status never changes.  When the
stored status is `Signed`, every such call fails with `AlreadySigned`
(code 4); when it is `Rejected`, a call that passes the hash and deadline
checks fails with `AlreadySigned`, but a call may instead fail earlier with
the corresponding hash or deadline error (see the counterexample). -/
theorem C5_terminal_statuses (s : ContractState) (hr : Reachable s)
    (t sg : Nat) (inner : List (Nat × SignatureStatus))
    (stored : SignatureStatus)
    (hds : aget s.docsign t = some inner)
    (hsg : aget inner sg = some stored)
    (hterm : stored = SignatureStatus.Signed ∨ stored = SignatureStatus.Rejected) :
    (∀ now h st m s', sign_document now s h sg st t ≠ .ok (m, s')) ∧
    (stored = SignatureStatus.Signed →
      ∀ now h st, sign_document now s h sg st t = .error (.err .AlreadySigned)) ∧
    (stored = SignatureStatus.Rejected →
      ∀ now h st d, aget s.t2dhash t = some h → aget s.deadlines t = some d →
        now ≤ d →
        sign_document now s h sg st t = .error (.err .AlreadySigned)) ∧
    Error.code .AlreadySigned = 4 := by
  have hmin : require_minted s t = true := by
    have h4 := (tablesAligned_of_reachable hr t).2.2.2
    have hsome : (aget s.docsign t).isSome = true := by simp [hds]
    have ho := h4.mpr hsome
    simpa [require_minted, tokenExists] using ho
  refine ⟨?_, ?_, ?_, rfl⟩
  · intro now h st m s' hok
    obtain ⟨_, inner', hds', hsg', _⟩ := sign_document_ok_inv hok
    rw [hds] at hds'
    cases Option.some.inj hds'
    rw [hsg] at hsg'
    have hw := Option.some.inj hsg'
    rcases hterm with hh | hh <;> (subst hh; exact SignatureStatus.noConfusion hw)
  · intro hS now h st
    subst hS
    exact sign_eval_signed hmin hds hsg
  · intro hR now h st d ht hd hle
    subst hR
    exact sign_eval_not_waiting hmin hds hsg nofun nofun ht hd hle nofun

theorem C5_terminal_statuses_witness :
    sign_document 500 s_sign1 20 1 SignatureStatus.Signed 1 =
      .error (.err .AlreadySigned) ∧
    sign_document 500 s_rej 20 1 SignatureStatus.Signed 1 =
      .error (.err .AlreadySigned) :=
  ⟨(C5_terminal_statuses s_sign1 reachable_s_sign1 1 1
      [(1, SignatureStatus.Signed), (2, SignatureStatus.Waiting)]
      SignatureStatus.Signed rfl rfl (.inl rfl)).2.1 rfl 500 20 SignatureStatus.Signed,
   (C5_terminal_statuses s_rej reachable_s_rej 1 1
      [(1, SignatureStatus.Rejected), (2, SignatureStatus.Waiting)]
      SignatureStatus.Rejected rfl rfl (.inr rfl)).2.2.1 rfl 500 20
      SignatureStatus.Signed 1000 rfl rfl (by decide)⟩

/-- C6 counterexample: the claim says that for a minted token with deadline
d, every `sign_document` call with now > d fails with `DeadlinePassed`
(code 10).  In the reachable state `s_mint1` (token 1, deadline 1000) a
call at now = 2000 with a wrong document hash fails with
`DocumentHashesDoesNotMatchTokenHash` (code 7) instead: the hash check
runs before the deadline check. -/
theorem C6_deadline_passed_not_first :
    Reachable s_mint1 ∧
    aget s_mint1.owners 1 = some 100 ∧
    aget s_mint1.deadlines 1 = some 1000 ∧
    (1000 : Nat) < 2000 ∧
    sign_document 2000 s_mint1 99 1 SignatureStatus.Signed 1 =
      .error (.err .DocumentHashesDoesNotMatchTokenHash) ∧
    (Fail.err .DocumentHashesDoesNotMatchTokenHash ≠ Fail.err .DeadlinePassed) :=
  ⟨reachable_s_mint1, rfl, rfl, by decide, rfl, by decide⟩

/-- C6 (amended): for a minted token with stored deadline d: a
`sign_document` call with now > d never succeeds (so neither `DOCSIGN` nor
`NONCES` is mutated — an aborted call commits nothing), and it fails with
`DeadlinePassed` (code 10) whenever it reaches the deadline check (signer
enrolled with a status other than `NotASigner`/`Signed`, hash matching);
with now ≤ d the two deadline checks (steps 12 and 14) pass: the call never
fails with `DeadlinePassed` or `SignatureExpired`. -/
theorem C6_deadline_enforcement (s : ContractState) (t o d : Nat)
    (ho : aget s.owners t = some o) (hd : aget s.deadlines t = some d) :
    (∀ now h sg st m s', d < now → sign_document now s h sg st t ≠ .ok (m, s')) ∧
    (∀ now h sg st inner stored, d < now →
      aget s.docsign t = some inner → aget inner sg = some stored →
      stored ≠ SignatureStatus.NotASigner → stored ≠ SignatureStatus.Signed →
      aget s.t2dhash t = some h →
      sign_document now s h sg st t = .error (.err .DeadlinePassed)) ∧
    (∀ now h sg st, now ≤ d →
      sign_document now s h sg st t ≠ .error (.err .DeadlinePassed) ∧
      sign_document now s h sg st t ≠ .error (.err .SignatureExpired)) ∧
    Error.code .DeadlinePassed = 10 := by
  refine ⟨?_, ?_, ?_, rfl⟩
  · intro now h sg st m s' hlt hok
    obtain ⟨_, inner, _, _, _, ⟨d', hd', hle⟩, _, _⟩ := sign_document_ok_inv hok
    rw [hd] at hd'
    cases Option.some.inj hd'
    omega
  · intro now h sg st inner stored hlt hds hsg h1 h2 ht
    have hmin : require_minted s t = true := by
      simp [require_minted, tokenExists, ho]
    exact sign_eval_deadline_passed hmin hds hsg h1 h2 ht hd hlt
  · intro now h sg st hle
    rcases sign_document_cases now s h sg t st with ⟨m, s', hok⟩ | ⟨e, he, hexp, hdp⟩
    · rw [hok]
      exact ⟨nofun, nofun⟩
    · rw [he]
      constructor
      · intro hh
        obtain ⟨d', hd', hlt⟩ := hdp (Fail.err.inj (Except.error.inj hh))
        rw [hd] at hd'
        cases Option.some.inj hd'
        omega
      · intro hh
        exact hexp (Fail.err.inj (Except.error.inj hh))

theorem C6_deadline_enforcement_witness :
    sign_document 2000 s_mint1 20 1 SignatureStatus.Signed 1 =
      .error (.err .DeadlinePassed) ∧
    sign_document 500 s_mint1 20 1 SignatureStatus.Signed 1 ≠
      .error (.err .DeadlinePassed) :=
  ⟨(C6_deadline_enforcement s_mint1 1 100 1000 rfl rfl).2.1 2000 20 1
      SignatureStatus.Signed
      [(1, SignatureStatus.Waiting), (2, SignatureStatus.Waiting)]
      SignatureStatus.Waiting (by decide) rfl rfl nofun nofun rfl,
   ((C6_deadline_enforcement s_mint1 1 100 1000 rfl rfl).2.2.1 500 20 1
      SignatureStatus.Signed (by decide)).1⟩

/-- C7 counterexample: the claim says that for a token id already in
`OWNERS`, any `safe_mint` call with that token id fails with
`TokenAlreadyMinted` (code 13).  Token 1 is minted in `s_mint1`, yet a
`safe_mint` for token 1 with an empty signer list fails with
`SignersListEmpty` (code 15): the signer-list check runs first. -/
theorem C7_empty_signers_preempts :
    aget s_mint1.owners 1 = some 100 ∧
    safe_mint s_mint1 100 1 10 [] 20 1000 = .error (.err .SignersListEmpty) ∧
    (Fail.err .SignersListEmpty ≠ Fail.err .TokenAlreadyMinted) ∧
    Error.code .SignersListEmpty = 15 :=
  ⟨rfl, rfl, by decide, rfl⟩

/-- C7 (amended): for a token id already present in `OWNERS`, a `safe_mint`
call with that token id and a non-empty signer list fails with
`TokenAlreadyMinted` (code 13); with an empty signer list it fails with
`SignersListEmpty`.  Either way no `safe_mint` call with that token id ever
succeeds, so a second mint of the same token id is impossible and the
recorded owner is never overwritten. -/
theorem C7_no_remint (s : ContractState) (t o : Nat)
    (ho : aget s.owners t = some o) :
    (∀ toAddr u h d (sg : List Nat), sg ≠ [] →
      safe_mint s toAddr t u sg h d = .error (.err .TokenAlreadyMinted)) ∧
    (∀ toAddr u h d, safe_mint s toAddr t u [] h d =
      .error (.err .SignersListEmpty)) ∧
    (∀ toAddr u h d (sg : List Nat) r s',
      safe_mint s toAddr t u sg h d ≠ .ok (r, s')) ∧
    Error.code .TokenAlreadyMinted = 13 := by
  refine ⟨fun toA u h d sg hsg => safe_mint_eval_minted ho hsg,
          fun toA u h d => safe_mint_eval_empty s toA t u h d,
          fun toA u h d sg r s' hok => ?_, rfl⟩
  obtain ⟨_, hnone, _, _⟩ := safe_mint_ok_inv hok
  rw [ho] at hnone
  exact Option.noConfusion hnone

theorem C7_no_remint_witness :
    safe_mint s_mint1 7 1 10 [5] 20 1000 = .error (.err .TokenAlreadyMinted) :=
  (C7_no_remint s_mint1 1 100 rfl).1 7 10 20 1000 [5] (by decide)

/-- C8: a `safe_mint` call with an empty signers list fails with
`SignersListEmpty` (code 15) before any other validation — for every
state and every other argument, including an already-minted token id — and
an aborted call commits nothing, so no entry is created in `OWNERS`,
`URIS`, `T2DHASH`, `DEADLINES` or `DOCSIGN`. -/
theorem C8_empty_signers (s : ContractState) (toAddr t u h d : Nat) :
    safe_mint s toAddr t u [] h d = .error (.err .SignersListEmpty) ∧
    Error.code .SignersListEmpty = 15 :=
  ⟨safe_mint_eval_empty s toAddr t u h d, rfl⟩

/-- C9: for a minted token whose enrolled signer is in `Waiting` state, a
`sign_document` call whose document hash differs from the stored
`T2DHASH[token_id]` fails with `DocumentHashesDoesNotMatchTokenHash`
(code 7) — for every ledger time and every deadline content, which shows
the hash comparison precedes the deadline checks; and a call by a
non-enrolled signer fails with `SignerDoesNotExist`, and one by a signer
with stored status `Signed` fails with `AlreadySigned`, for every hash
argument, which shows the membership and status checks precede the hash
comparison.  An aborted call mutates no state. -/
theorem C9_wrong_hash (s : ContractState) (t sg o h0 : Nat)
    (inner : List (Nat × SignatureStatus))
    (ho : aget s.owners t = some o)
    (hds : aget s.docsign t = some inner)
    (hw : aget inner sg = some SignatureStatus.Waiting)
    (ht : aget s.t2dhash t = some h0) :
    (∀ now h st, h0 ≠ h →
      sign_document now s h sg st t =
        .error (.err .DocumentHashesDoesNotMatchTokenHash)) ∧
    (∀ now h st sg2, aget inner sg2 = none →
      sign_document now s h sg2 st t = .error (.err .SignerDoesNotExist)) ∧
    (∀ now h st sg2, aget inner sg2 = some SignatureStatus.Signed →
      sign_document now s h sg2 st t = .error (.err .AlreadySigned)) ∧
    Error.code .DocumentHashesDoesNotMatchTokenHash = 7 := by
  have hmin : require_minted s t = true := by
    simp [require_minted, tokenExists, ho]
  refine ⟨?_, ?_, ?_, rfl⟩
  · intro now h st hne
    exact sign_eval_hash_mismatch hmin hds hw nofun nofun ht hne
  · intro now h st sg2 hnone
    exact sign_eval_signer_none hmin hds hnone
  · intro now h st sg2 hsigned
    exact sign_eval_signed hmin hds hsigned

theorem C9_wrong_hash_witness :
    sign_document 2000 s_sign1 99 2 SignatureStatus.Signed 1 =
      .error (.err .DocumentHashesDoesNotMatchTokenHash) ∧
    sign_document 500 s_sign1 20 3 SignatureStatus.Signed 1 =
      .error (.err .SignerDoesNotExist) ∧
    sign_document 500 s_sign1 20 1 SignatureStatus.Signed 1 =
      .error (.err .AlreadySigned) :=
  ⟨(C9_wrong_hash s_sign1 1 2 100 20
      [(1, SignatureStatus.Signed), (2, SignatureStatus.Waiting)]
      rfl rfl rfl rfl).1 2000 99 SignatureStatus.Signed (by decide),
   (C9_wrong_hash s_sign1 1 2 100 20
      [(1, SignatureStatus.Signed), (2, SignatureStatus.Waiting)]
      rfl rfl rfl rfl).2.1 500 20 SignatureStatus.Signed 3 rfl,
   (C9_wrong_hash s_sign1 1 2 100 20
      [(1, SignatureStatus.Signed), (2, SignatureStatus.Waiting)]
      rfl rfl rfl rfl).2.2.1 500 20 SignatureStatus.Signed 1 rfl⟩

/-- C10: `init(admin, token_id)` succeeds exactly when no administrator
exists, recording `admin` as the administrator returned by `get_admin`;
on a state with an administrator every `init` call aborts (leaving the
stored administrator unchanged, since an aborted call commits nothing), so
`ADMIN` is set exactly once; and the `token_id` parameter has no effect on
the result for any value.  (The admin helpers are modelled from the spec:
`admin.rs` is not among the sources.) -/
theorem C10_init_once (s : ContractState) (a tid : Nat) :
    (s.admin = none →
      init s a tid = .ok (write_administrator s a) ∧
      get_admin (write_administrator s a) = some a) ∧
    (∀ b, s.admin = some b → init s a tid = .error .trap) ∧
    (∀ tid2, init s a tid = init s a tid2) ∧
    (∀ s', init s a tid = .ok s' →
      get_admin s' = some a ∧ ∀ a2 tid2, init s' a2 tid2 = .error .trap) := by
  refine ⟨?_, ?_, fun tid2 => rfl, ?_⟩
  · intro hnone
    refine ⟨by simp [init, has_administrator, hnone], ?_⟩
    simp [get_admin, read_administrator, write_administrator]
  · intro b hb
    simp [init, has_administrator, hb]
  · intro s' hok
    unfold init at hok
    split at hok
    · exact Except.noConfusion hok
    · cases Except.ok.inj hok
      refine ⟨by simp [get_admin, read_administrator, write_administrator], ?_⟩
      intro a2 tid2
      simp [init, has_administrator, write_administrator]

theorem C10_init_once_witness :
    (init initialState 100 0 = .ok (write_administrator initialState 100) ∧
     get_admin (write_administrator initialState 100) = some 100) ∧
    init s_init 7 3 = .error .trap :=
  ⟨(C10_init_once initialState 100 0).1 rfl,
   (C10_init_once s_init 7 3).2.1 100 rfl⟩
